import Mathlib

/-!
Verification of the bulk file-operation engine of Oxyde_FM
(`src-tauri/src/systems/file_ops.rs`), against its natural-language
specification.

The Rust engine is concurrent; its shared state is a per-operation record
behind a mutex plus three atomic flags (cancel / pause / turbo).  The shallow
embedding below models:

* the operation record and its status state machine as explicit data, with
  the four places that write `status` turned into events of a step function
  (`stepStatus`), so that an arbitrary interleaving of the caller's
  `cancel_operation` with the supervising task is a list of events;
* the planner (fast-move filter, directory expansion, byte/file totals) as
  pure functions over a symbolic description of the filesystem
  (`SrcNode` / `WalkEntry`), exactly mirroring the control flow of
  `perform_copy` lines 228-298;
* a worker's per-file behaviour (`perform_copy` lines 375-431) as a pure
  function of the file's I/O outcomes (`FileJob`): each iteration of the
  chunk loop samples the cancel/pause flags, which we represent by a signal
  (`Sig`) describing the sampled values at that iteration;
* `perform_delete` / `perform_trash` as pure functions of the operation's
  inputs and of the outcomes of the external calls they make.

External effects (actual disk writes, the Windows shell call, the archive
subsystem) are inputs: each is represented by the value the Rust code
branches on.
-/

namespace OxydeFM

/-- `OpStatus` from file_ops.rs lines 19-29. -/
inductive OpStatus where
  | Queued
  | Calculating
  | Running
  | Paused
  | Cancelled
  | Completed
  | Error (msg : String)
  | WaitingForConflictResolution
deriving DecidableEq, Repr

/-- `FileOpType` from file_ops.rs lines 31-37. -/
inductive FileOpType where
  | Copy
  | Move
  | Delete
  | Trash
deriving DecidableEq, Repr

/-- The fields of `FileOperation` (file_ops.rs lines 39-61) that the claims
are about.  The three shared flags are modelled separately: `cancel` as the
`cancelRequested` field of `OpState` and as per-iteration signals inside the
workers; `pause`/`turbo` as explicit inputs of the functions that read them. -/
structure OpRecord where
  status : OpStatus
  totalBytes : Nat
  processedBytes : Nat
  totalFiles : Nat
  processedFiles : Nat
  bytesPerSecond : Nat
deriving DecidableEq, Repr

/-! ## Status state machine

`status` is written at exactly four places:
* `execute_operation` line 148: `locked.status = OpStatus::Calculating`;
* `perform_copy` line 296 / `perform_delete` line 609 / `perform_trash`
  line 736: `locked.status = OpStatus::Running` (unconditional);
* `cancel_operation` lines 811-820: stores the cancel flag and sets
  `locked.status = OpStatus::Cancelled` (unconditional);
* the finaliser, `execute_operation` lines 179-224: keeps `Cancelled` if the
  status currently reads `Cancelled`, otherwise stores `Completed` on `Ok`
  and `Error e` on `Err(e)`.

All four run under the record's mutex, so a concurrent execution is exactly
a sequence of these events. -/

/-- The status and cancel-flag portion of a record. -/
structure OpState where
  status : OpStatus
  cancelRequested : Bool
deriving DecidableEq, Repr

/-- One serialised write to the record's status field (see above). -/
inductive OpEvent where
  | setCalculating
  | setRunning
  | cancelOp
  | finalize (result : Option String)
deriving DecidableEq, Repr

/-- Effect of one status write, exactly as the corresponding Rust code.
`finalize none` is the `Ok(_)` case of the blocking task, `finalize (some e)`
the `Err(e)` case. -/
def stepStatus (s : OpState) (e : OpEvent) : OpState :=
  match e with
  | .setCalculating => { s with status := .Calculating }
  | .setRunning => { s with status := .Running }
  | .cancelOp => { status := .Cancelled, cancelRequested := true }
  | .finalize r =>
      if s.status = .Cancelled then s
      else
        { s with status := match r with
            | none => .Completed
            | some m => .Error m }

/-- A fresh record starts `Queued` with the cancel flag clear
(`FileOperation::new`, lines 64-83). -/
def initOpState : OpState := { status := .Queued, cancelRequested := false }

/-- Run a serialised sequence of status writes from the initial state. -/
def runTrace (es : List OpEvent) : OpState :=
  es.foldl stepStatus initOpState

/-! ## Worker: per-file copy (`perform_copy` lines 375-431)

The chunk loop body is:
```
loop {
    if cancel { break; }
    while pause { sleep; if cancel { return Ok(()); } }
    let n = match file_in.read(..) { Ok(0) => break, Ok(n) => n, Err(_) => break };
    if file_out.write_all(..).is_err() { break; }
    processed_bytes.fetch_add(n); ...
}
processed_files.fetch_add(1);
if is_move { let _ = std::fs::remove_file(src); }
```
Each iteration samples the two flags; only three sampled outcomes are
distinguishable: the flags allow the iteration to proceed (`go`; this also
covers a pause that is later resumed), cancel reads true at the top of the
loop (`cancelNow`, leading to `break`), or pause reads true and cancel
becomes true while pause-polling (`pauseThenCancel`, leading to
`return Ok(())` out of the whole worker closure). -/

/-- Sampled values of the cancel/pause flags at one loop iteration. -/
inductive Sig where
  | go
  | cancelNow
  | pauseThenCancel
deriving DecidableEq, Repr

/-- Outcome of one `read` of the source file, together with whether the
subsequent `write_all` of that chunk succeeds.  An exhausted list models the
`Ok(0)` end-of-file read. -/
inductive ReadEv where
  | chunk (n : Nat) (writeOk : Bool)
  | eof
  | rerr
deriving DecidableEq, Repr

/-- How the chunk loop terminated. -/
inductive CopyExit where
  | eofDone
  | readError
  | writeError
  | cancelBreak
  | pauseCancelReturn
deriving DecidableEq, Repr

/-- The chunk loop: returns the bytes added to the shared `processed_bytes`
accumulator and the cause of termination.  Signals past the end of `sigs`
default to `go` (flags never set again). -/
def copyLoop (sigs : List Sig) : List ReadEv → Nat × CopyExit
  | [] =>
      match sigs.headD .go with
      | .cancelNow => (0, .cancelBreak)
      | .pauseThenCancel => (0, .pauseCancelReturn)
      | .go => (0, .eofDone)
  | ev :: rest =>
      match sigs.headD .go with
      | .cancelNow => (0, .cancelBreak)
      | .pauseThenCancel => (0, .pauseCancelReturn)
      | .go =>
          match ev with
          | .eof => (0, .eofDone)
          | .rerr => (0, .readError)
          | .chunk _ false => (0, .writeError)
          | .chunk n true =>
              let r := copyLoop sigs.tail rest
              (n + r.1, r.2)

/-- Symbolic description of one planned file and of the I/O outcomes its
copy will encounter.  `size` is the length reported by metadata during
planning (0 when metadata fails, as `unwrap_or(0)` does).
`pauseCancelAtClaim` models the pause-poll between claiming the index and
touching the file (lines 378-381): if the worker observes pause and then
cancel there, it returns without processing the file. -/
structure FileJob where
  size : Nat
  pauseCancelAtClaim : Bool
  openOk : Bool
  createOk : Bool
  sigs : List Sig
  evs : List ReadEv
deriving DecidableEq, Repr

/-- How the processing of one claimed file ended. -/
inductive FileExit where
  | earlyReturn
  | openFail
  | createFail
  | copy (e : CopyExit)
deriving DecidableEq, Repr

/-- Effect of processing one claimed file: contributions to the shared
`processed_bytes`/`processed_files` accumulators, whether
`std::fs::remove_file(src)` ran, and whether the worker closure returned
(abandoning its loop) instead of continuing with the next index. -/
structure FileOutcome where
  dBytes : Nat
  dFiles : Nat
  srcDeleted : Bool
  workerReturned : Bool
  exit : FileExit
deriving DecidableEq, Repr

/-- `perform_copy` lines 378-431: the body of one worker iteration after the
index has been claimed.  Note that after the chunk loop exits by `break`
(end of file, read error, write error, or cancel observed at the top of the
loop) the code unconditionally increments `processed_files` and, for a Move,
unconditionally deletes the source file. -/
def processFile (isMove : Bool) (j : FileJob) : FileOutcome :=
  if j.pauseCancelAtClaim then
    { dBytes := 0, dFiles := 0, srcDeleted := false, workerReturned := true,
      exit := .earlyReturn }
  else if !j.openOk then
    { dBytes := 0, dFiles := 1, srcDeleted := false, workerReturned := false,
      exit := .openFail }
  else if !j.createOk then
    { dBytes := 0, dFiles := 1, srcDeleted := false, workerReturned := false,
      exit := .createFail }
  else
    let r := copyLoop j.sigs j.evs
    match r.2 with
    | .pauseCancelReturn =>
        { dBytes := r.1, dFiles := 0, srcDeleted := false,
          workerReturned := true, exit := .copy .pauseCancelReturn }
    | e =>
        { dBytes := r.1, dFiles := 1, srcDeleted := isMove,
          workerReturned := false, exit := .copy e }

/-! ## Planner (`perform_copy` lines 228-298) -/

/-- One item yielded by `walkdir::WalkDir::new(src)` while expanding a
directory source: a directory entry (skipped by the planner), a regular file
(with its metadata size and the copy-phase behaviour of that file), or an
error yielded by the walk.  `strip_prefix` cannot fail for entries produced
by a walk rooted at `src`, so it has no error case here. -/
inductive WalkEntry where
  | okDir
  | okFile (j : FileJob)
  | werr (msg : String)
deriving DecidableEq, Repr

/-- Whether a walk item is an error item. -/
def WalkEntry.isErr : WalkEntry → Bool
  | .werr _ => true
  | _ => false

/-- Whether a walk item is a directory entry. -/
def WalkEntry.isDirEntry : WalkEntry → Bool
  | .okDir => true
  | _ => false

/-- A top-level source path as the engine observes it: whether it exists,
whether `file_name()` is `Some`, whether `std::fs::rename` into the
destination succeeds (Move fast path), whether it is a directory, and its
expansion (`walk` when a directory, `fileJob` when a regular file). -/
structure SrcNode where
  existsOnDisk : Bool
  hasName : Bool
  renameOk : Bool
  isDir : Bool
  walk : List WalkEntry
  fileJob : FileJob
deriving DecidableEq, Repr

/-- Directory expansion, lines 271-283: directory entries are skipped
(`continue`), file entries are accumulated into the flat pair list and the
totals, and a walk error is propagated by
`entry.map_err(|e| e.to_string())?`, aborting the whole function.  Returns
(pair list, total_bytes, total_files). -/
def walkPlan : List WalkEntry → Except String (List FileJob × Nat × Nat)
  | [] => .ok ([], 0, 0)
  | .okDir :: rest => walkPlan rest
  | .okFile j :: rest =>
      match walkPlan rest with
      | .error m => .error m
      | .ok (js, b, f) => .ok (j :: js, j.size + b, f + 1)
  | .werr m :: _ => .error m

/-- Planning of one slow-path source, lines 266-290: a missing source is
skipped; a missing file name aborts with "Invalid source name"; a directory
is expanded by the walk; a plain file contributes itself with its metadata
size. -/
def planSource (s : SrcNode) : Except String (List FileJob × Nat × Nat) :=
  if !s.existsOnDisk then .ok ([], 0, 0)
  else if !s.hasName then .error "Invalid source name"
  else if s.isDir then walkPlan s.walk
  else .ok ([s.fileJob], s.fileJob.size, 1)

/-- Planning of the whole slow-path source list (the loop of line 266). -/
def planAll : List SrcNode → Except String (List FileJob × Nat × Nat)
  | [] => .ok ([], 0, 0)
  | s :: rest =>
      match planSource s with
      | .error m => .error m
      | .ok (js, b, f) =>
          match planAll rest with
          | .error m => .error m
          | .ok (js2, b2, f2) => .ok (js ++ js2, b + b2, f + f2)

/-- Move fast path, lines 236-253: a missing source is skipped, a missing
file name aborts, a successful rename removes the source from further
processing, a failed rename queues it for the slow path. -/
def fastMoveFilter : List SrcNode → Except String (List SrcNode)
  | [] => .ok []
  | s :: rest =>
      if !s.existsOnDisk then fastMoveFilter rest
      else if !s.hasName then .error "Invalid source name"
      else if s.renameOk then fastMoveFilter rest
      else
        match fastMoveFilter rest with
        | .error m => .error m
        | .ok r => .ok (s :: r)

/-! ## Copy/Move execution (`perform_copy` and `execute_operation`) -/

/-- Aggregate effect of the worker pool on the shared accumulators: the
shared cursor hands each index of the pair list to exactly one worker, so
the final accumulator values are the sums of the per-file contributions.
(Cancellation's effect on `status` is covered by the event model above; this
pool model is the uncancelled execution.) -/
def poolRun (isMove : Bool) : List FileJob → Nat × Nat
  | [] => (0, 0)
  | j :: rest =>
      let o := processFile isMove j
      let r := poolRun isMove rest
      (o.dBytes + r.1, o.dFiles + r.2)

/-- Result of the blocking part of a Copy/Move: the `Result` value returned
by `perform_copy` (`none` for `Ok`) and the record as left behind. -/
structure CopyRun where
  result : Option String
  record : OpRecord
deriving DecidableEq, Repr

/-- `perform_copy`, lines 228-482.  Mirrors, in order: the missing
destination check; the fast-move filter (Move only); the early return when
every Move source was fast-moved; planning; the write of the totals and of
`status = Running` (lines 292-298); the worker pool; and the final update
(lines 461-470) which forces `processed_* = total_*` and a zero throughput.
The trailing source-directory cleanup (lines 472-479) does not touch the
record. -/
def performCopy (isMove destProvided : Bool) (sources : List SrcNode)
    (rec : OpRecord) : CopyRun :=
  if !destProvided then
    { result := some "No destination provided for copy/move", record := rec }
  else
    match (if isMove then fastMoveFilter sources else .ok sources) with
    | .error m => { result := some m, record := rec }
    | .ok stc =>
      if stc.isEmpty && isMove then { result := none, record := rec }
      else
        match planAll stc with
        | .error m => { result := some m, record := rec }
        | .ok (jobs, tb, tf) =>
            let recRun : OpRecord :=
              { rec with totalBytes := tb, totalFiles := tf, status := .Running }
            let pool := poolRun isMove jobs
            let recMid : OpRecord :=
              { recRun with processedBytes := pool.1, processedFiles := pool.2 }
            { result := none,
              record := { recMid with
                        processedBytes := recMid.totalBytes,
                        processedFiles := recMid.totalFiles,
                        bytesPerSecond := 0 } }

/-- The finaliser, `execute_operation` lines 179-224: if the status reads
`Cancelled` it is kept; otherwise `Ok` becomes `Completed` and `Err(e)`
becomes `Error e`.  Counters are not touched. -/
def finalizeRecord (result : Option String) (rec : OpRecord) : OpRecord :=
  if rec.status = .Cancelled then rec
  else
    { rec with status := match result with
        | none => .Completed
        | some m => .Error m }

/-- A Copy/Move operation run by the supervising task with no concurrent
`cancel_operation`: `status = Calculating` is written on pickup (line 148),
then `perform_copy` runs, then the finaliser resolves the terminal status. -/
def runCopyOp (isMove destProvided : Bool) (sources : List SrcNode)
    (rec : OpRecord) : OpRecord :=
  let r := performCopy isMove destProvided sources { rec with status := .Calculating }
  finalizeRecord r.result r.record

/-! ## Delete and Trash (`perform_delete` lines 526-701,
`perform_trash` lines 703-792)

Both functions read the cancel and (for Delete) turbo flags; neither ever
reads the pause flag.  The embedding keeps `pause` as an explicit input so
that this can be stated.  The flags are modelled as the constant values the
loops sample (`cancelled`).  External calls are inputs: the archive
subsystem's verdict per archive, and the Windows shell call's result. -/

/-- One source path of a Delete/Trash: `virtualSplit` is the result of
`crate::utils::archive::split_virtual_path` — `none` for a plain
filesystem path, `some (archive, internal)` for a path inside an archive
container (an empty internal path is treated as the archive file itself,
hence real). -/
structure DelSource where
  path : String
  virtualSplit : Option (String × String)
deriving DecidableEq, Repr

/-- The real-filesystem sources (lines 535-545 / 712-722). -/
def splitReal (sources : List DelSource) : List DelSource :=
  sources.filter (fun s =>
    match s.virtualSplit with
    | some (_, internal) => internal = ""
    | none => true)

/-- Append one virtual path under its archive key, as
`virtual_sources.entry(archive).or_default().push(internal)` does.  (The
Rust map is a `HashMap`; the grouping is keyed the same way, here in
first-seen key order.) -/
def addVirtual : List (String × List String) → String → String →
    List (String × List String)
  | [], a, p => [(a, [p])]
  | (k, ps) :: rest, a, p =>
      if k = a then (k, ps ++ [p]) :: rest
      else (k, ps) :: addVirtual rest a p

/-- Grouping of the virtual sources by archive (lines 535-545 / 712-722). -/
def groupVirtual (sources : List DelSource) : List (String × List String) :=
  sources.foldl (fun gs s =>
    match s.virtualSplit with
    | some (a, internal) => if internal = "" then gs else addVirtual gs a internal
    | none => gs) []

/-- The archive-deletion loop (lines 548-551 / 725-728): before each archive
the cancel flag is checked (`return Ok(())` when set); an archive error is
propagated by `?`.  Returns `(some r, as)` when the loop exits the whole
function early with result `r` after removing from archives `as`, and
`(none, as)` when it completes. -/
def runArchives (cancelled : Bool) (archiveOutcome : String → Option String) :
    List (String × List String) → Option (Option String) × List String
  | [] => (none, [])
  | (a, _) :: rest =>
      if cancelled then (some none, [])
      else
        match archiveOutcome a with
        | some e => (some (some e), [])
        | none =>
            let r := runArchives cancelled archiveOutcome rest
            (r.1, a :: r.2)

/-- Inputs of a Delete operation: its sources, the `turbo` snapshot read
from the record (line 527-530), the sampled cancel and pause flags, the
archive subsystem's verdicts, and the Windows shell bulk-delete outcome
(`none` models a zero return). -/
structure DelInput where
  sources : List DelSource
  turbo : Bool
  cancelled : Bool
  pause : Bool
  archiveOutcome : String → Option String
  bulkError : Option String

/-- Observable outcome of `perform_delete`: its returned `Result`, the
record it leaves behind, the archives it handed to the archive subsystem,
the real sources whose removal was attempted, and the final value of the
shared `processed_files` counter (which the progress loop samples into the
record). -/
structure DelRun where
  result : Option String
  record : OpRecord
  archivesProcessed : List String
  removalsAttempted : List String
  processedCount : Nat
deriving Repr

/-- `perform_delete`, lines 526-701.  In order: split real/virtual sources;
archive-deletion loop; early `Ok` when no real source remains; the turbo
bulk shell delete (lines 558-594); otherwise the worker-pool path, which
first writes `total_files` and `status = Running` (lines 606-611) and then
removes one source per claimed index, swallowing per-item errors.  With the
cancel flag set the workers exit before claiming anything. -/
def performDelete (i : DelInput) (rec : OpRecord) : DelRun :=
  let reals := splitReal i.sources
  let ar := runArchives i.cancelled i.archiveOutcome (groupVirtual i.sources)
  match ar.1 with
  | some r =>
      { result := r, record := rec, archivesProcessed := ar.2,
        removalsAttempted := [], processedCount := 0 }
  | none =>
    if reals.isEmpty then
      { result := none, record := rec, archivesProcessed := ar.2,
        removalsAttempted := [], processedCount := 0 }
    else if i.turbo then
      { result := i.bulkError, record := rec, archivesProcessed := ar.2,
        removalsAttempted := reals.map (fun s => s.path), processedCount := 0 }
    else
      let recRun : OpRecord :=
        { rec with totalFiles := reals.length, status := .Running }
      if i.cancelled then
        { result := none, record := recRun, archivesProcessed := ar.2,
          removalsAttempted := [], processedCount := 0 }
      else
        { result := none,
          record := { recRun with processedFiles := reals.length },
          archivesProcessed := ar.2,
          removalsAttempted := reals.map (fun s => s.path),
          processedCount := reals.length }

/-- Inputs of a Trash operation: sources, the sampled cancel and pause
flags, the archive verdicts, the shell call's outcome, and the shell's
aborted flag (checked only after a zero return). -/
structure TrashInput where
  sources : List DelSource
  cancelled : Bool
  pause : Bool
  archiveOutcome : String → Option String
  shellError : Option String
  aborted : Bool

/-- Observable outcome of `perform_trash`. -/
structure TrashRun where
  result : Option String
  record : OpRecord
  archivesProcessed : List String
  trashedAll : Bool
deriving Repr

/-- `perform_trash`, lines 703-792.  In order: split real/virtual; archive
loop; early `Ok` when no real source remains; write `status = Running` and
`total_files` (lines 734-739); the shell recycle-bin call (error or abort
propagate as `Err`); on success `processed_files := total_files`. -/
def performTrash (i : TrashInput) (rec : OpRecord) : TrashRun :=
  let reals := splitReal i.sources
  let ar := runArchives i.cancelled i.archiveOutcome (groupVirtual i.sources)
  match ar.1 with
  | some r =>
      { result := r, record := rec, archivesProcessed := ar.2, trashedAll := false }
  | none =>
    if reals.isEmpty then
      { result := none, record := rec, archivesProcessed := ar.2, trashedAll := false }
    else
      let recRun : OpRecord :=
        { rec with status := .Running, totalFiles := reals.length }
      match i.shellError with
      | some m =>
          { result := some m, record := recRun, archivesProcessed := ar.2,
            trashedAll := false }
      | none =>
          if i.aborted then
            { result := some "Operation was aborted.", record := recRun,
              archivesProcessed := ar.2, trashedAll := false }
          else
            { result := none,
              record := { recRun with processedFiles := recRun.totalFiles },
              archivesProcessed := ar.2, trashedAll := true }

/-! ## Registry eviction (`queue_operation` lines 103-138)

The registry is a `HashMap<String, _>`; its iteration order is unspecified
and unrelated to insertion time.  The cleanup is therefore a function of the
entries *in iteration order*: if more than 50 records are held, the ids of
the first 20 records in a terminal state (in that order) are collected and
removed.  Ids are modelled as naturals. -/

/-- The statuses treated as final by the cleanup (line 115). -/
def isTerminal : OpStatus → Bool
  | .Completed => true
  | .Cancelled => true
  | .Error _ => true
  | _ => false

/-- Ids collected for removal (lines 111-119): when more than 50 records
exist, the first 20 terminal records in iteration order. -/
def cleanupToRemove (entries : List (Nat × OpStatus)) : List Nat :=
  if entries.length > 50 then
    ((entries.filter (fun p => isTerminal p.2)).map Prod.fst).take 20
  else []

/-- The registry after the cleanup's removals (lines 121-123). -/
def queueCleanup (entries : List (Nat × OpStatus)) : List (Nat × OpStatus) :=
  entries.filter (fun p => !(cleanupToRemove entries).contains p.1)

/-! ## Characterisations and concrete instances used by the theorems -/

/-- A trouble-free file of `n` bytes, streamed in one chunk. -/
def mkJob (n : Nat) : FileJob :=
  { size := n, pauseCancelAtClaim := false, openOk := true, createOk := true,
    sigs := [], evs := [.chunk n true] }

/-- A file whose second chunk's `write_all` fails (e.g. disk full). -/
def writeFailJob : FileJob :=
  { size := 10, pauseCancelAtClaim := false, openOk := true, createOk := true,
    sigs := [], evs := [.chunk 5 true, .chunk 5 false] }

/-- A file mid-copy when the cancel flag is observed at the top of the chunk
loop (first chunk copied, cancel read true before the second). -/
def cancelMidJob : FileJob :=
  { size := 12, pauseCancelAtClaim := false, openOk := true, createOk := true,
    sigs := [.go, .cancelNow], evs := [.chunk 5 true, .chunk 7 true] }

/-- A file whose `File::open` fails. -/
def openFailJob : FileJob :=
  { size := 7, pauseCancelAtClaim := false, openOk := false, createOk := true,
    sigs := [], evs := [] }

/-- Whether a file's processing ended in one of the four per-file I/O
failures named by the specification (open, create, read, write). -/
def FileOutcome.isIoFailure (o : FileOutcome) : Bool :=
  match o.exit with
  | .openFail => true
  | .createFail => true
  | .copy .readError => true
  | .copy .writeError => true
  | _ => false

/-- The regular files of a walk, in order (directories dropped). -/
def filesOf : List WalkEntry → List FileJob
  | [] => []
  | .okDir :: rest => filesOf rest
  | .okFile j :: rest => j :: filesOf rest
  | .werr _ :: rest => filesOf rest

/-- Sum of the sizes of a list of planned files. -/
def sizeSum (js : List FileJob) : Nat :=
  js.foldr (fun j acc => j.size + acc) 0

/-- A record as freshly queued, all counters zero. -/
def rec0 : OpRecord :=
  { status := .Queued, totalBytes := 0, processedBytes := 0,
    totalFiles := 0, processedFiles := 0, bytesPerSecond := 0 }

/-- A record as queued by `move_items` when the caller supplied a totals
hint (`commands/ops.rs` lines 428-429 store it before queueing). -/
def recHint : OpRecord :=
  { status := .Queued, totalBytes := 999, processedBytes := 0,
    totalFiles := 1, processedFiles := 0, bytesPerSecond := 0 }

/-- A directory source whose walk yields an error between two good files. -/
def c3src : SrcNode :=
  { existsOnDisk := true, hasName := true, renameOk := false, isDir := true,
    walk := [.okFile (mkJob 4), .werr "boom", .okFile (mkJob 6)],
    fileJob := mkJob 0 }

/-- A directory walk containing two directory entries and one 10-byte file. -/
def c4walk : List WalkEntry := [.okDir, .okDir, .okFile (mkJob 10)]

/-- A Move source for which the atomic rename succeeds. -/
def fastSrc : SrcNode :=
  { existsOnDisk := true, hasName := true, renameOk := true, isDir := false,
    walk := [], fileJob := mkJob 0 }

/-- A Move source for which the atomic rename fails (cross-volume). -/
def slowSrc : SrcNode :=
  { existsOnDisk := true, hasName := true, renameOk := false, isDir := false,
    walk := [], fileJob := mkJob 3 }

/-- A registry snapshot in one possible `HashMap` iteration order: 31 active
records (ids 100-130) followed by 21 completed records with ids 20 down
to 0, where the id is the insertion age (0 = oldest). -/
def c9entries : List (Nat × OpStatus) :=
  (List.range 31).map (fun k => (100 + k, OpStatus.Running)) ++
    (List.range 21).map (fun k => (20 - k, OpStatus.Completed))

/-- A small registry snapshot below the cap. -/
def c9small : List (Nat × OpStatus) :=
  [(1, OpStatus.Running), (2, OpStatus.Completed)]

/-! ## Theorems -/

deriving instance DecidableEq for Except

/-- C1: the claim states that once `cancel_operation` has set the cancel
signal before the operation reaches a terminal state, the terminal status is
`Cancelled` and never `Completed`, regardless of when during Queued /
Calculating / Running the cancel arrives.  This fails on the code: a cancel
that arrives while the record is still `Queued` (first trace) or
`Calculating` (second trace) is overwritten by the unconditional
`status = Running` write of `perform_copy` line 296 (likewise
`perform_delete` line 609 and `perform_trash` line 736); the finaliser tests
the status field — not the cancel flag — so it then stores `Completed`.
Both traces below are real serialisations of the mutex-protected status
writes; in both, the cancel flag is set while the status is non-terminal,
yet the terminal status is `Completed`. -/
theorem cancel_before_running_completes :
    (runTrace [.cancelOp, .setCalculating, .setRunning, .finalize none]).cancelRequested = true
    ∧ (runTrace [.cancelOp, .setCalculating, .setRunning, .finalize none]).status = .Completed
    ∧ (runTrace [.setCalculating, .cancelOp, .setRunning, .finalize none]).status = .Completed := by
  decide

/-- C7: the claim states that the status only moves forward (apart from
Paused↔Running) and that a record whose status is Cancelled never later
becomes Running or Completed.  This fails on the code by the same race as
C1: after `cancel_operation` has set `Cancelled` during the Calculating
phase, the unconditional `status = Running` write of `perform_copy`
line 296 moves the terminal `Cancelled` record back to `Running`. -/
theorem cancelled_record_reenters_running :
    (runTrace [.setCalculating, .cancelOp]).status = .Cancelled
    ∧ (runTrace [.setCalculating, .cancelOp, .setRunning]).status = .Running := by
  decide

/-- C2: the claim states that for a Move the source file is deleted only
after its stream copy completed successfully, and in particular not when
the copy fails (open/create/read/write error) or is interrupted by
cancellation.  This fails on the code: `perform_copy` lines 428-431 run
`processed_files += 1; if is_move { remove_file(src) }` unconditionally
after the chunk loop exits by `break`, which covers write errors, read
errors and a cancel observed at the top of the loop.  First conjunct: a file
whose second chunk's write fails is deleted; second conjunct: a file whose
copy is interrupted by cancellation mid-file is deleted.  (The sibling
`perform_copy_with_progress` in `commands/ops.rs` lines 1018-1051 deletes
the source only after a fully successful copy, confirming the intent.) -/
theorem move_deletes_source_after_failed_copy :
    ((processFile true writeFailJob).exit = .copy .writeError
      ∧ (processFile true writeFailJob).srcDeleted = true)
    ∧ ((processFile true cancelMidJob).exit = .copy .cancelBreak
      ∧ (processFile true cancelMidJob).srcDeleted = true) := by
  decide

/-- C3 counterexample: the claim states that a walk error during expansion
of a directory entry only skips that entry and the operation does not fail
as a whole.  On the code, `entry.map_err(|e| e.to_string())?`
(`perform_copy` line 273) propagates the error out of `perform_copy`, so
the whole operation terminates with status `Error`: here a Copy of a single
directory whose walk yields `"boom"` between two good files ends in
`Error "boom"` and produces no plan at all. -/
theorem walk_error_fails_whole_op_example :
    (runCopyOp false true [c3src] rec0).status = .Error "boom"
    ∧ planAll [c3src] = .error "boom" := by
  decide

/-- C4 counterexample: the claim states that the flat pair list contains an
entry for each directory (0 bytes, but counted in `total_files`).  On the
code, `if entry.path().is_dir() { continue; }` (`perform_copy` line 274)
drops every directory entry: a walk with two directory entries and one
10-byte file plans to a single-entry pair list with `total_files = 1`
(the claim would require three entries and `total_files = 3`). -/
theorem dirs_absent_from_plan_example :
    walkPlan c4walk = .ok ([mkJob 10], 10, 1)
    ∧ c4walk.countP WalkEntry.isDirEntry = 2 := by
  decide

/-- C8 counterexample: the claim states that for every Copy/Move operation
`processed_* == total_*` whenever the terminal status is `Completed`.  On
the code, a Move whose every source is fast-renamed returns from
`perform_copy` at lines 258-261 before the totals are recomputed and before
the final forced snapshot, so a caller-provided totals hint (stored by
`move_items`, `commands/ops.rs` lines 428-429) survives: the operation
completes with `processed_files = 0` but `total_files = 1`. -/
theorem fast_move_completed_without_full_progress :
    (runCopyOp true true [fastSrc] recHint).status = .Completed
    ∧ (runCopyOp true true [fastSrc] recHint).processedFiles
        ≠ (runCopyOp true true [fastSrc] recHint).totalFiles := by
  decide

/-- C9 counterexample: the claim states that eviction considers the oldest
records first.  The registry is a `HashMap` whose iteration order is
unspecified; `queue_operation` lines 111-119 take the first 20 terminal
records in that order.  In the iteration order `c9entries` (ids are
insertion ages, 0 = oldest), the oldest terminal record (id 0) is *kept*
while the 20 younger terminal records (ids 1-20) are evicted — the opposite
of oldest-first. -/
theorem eviction_not_oldest_first_example :
    (0, OpStatus.Completed) ∈ queueCleanup c9entries
    ∧ (20, OpStatus.Completed) ∉ queueCleanup c9entries
    ∧ c9entries.length > 50 := by
  decide

/-- Helper: a walk error after error-free entries aborts the expansion with
exactly that error. -/
theorem walkPlan_append_err (es : List WalkEntry) (m : String)
    (rest : List WalkEntry) (h : ∀ e ∈ es, e.isErr = false) :
    walkPlan (es ++ .werr m :: rest) = .error m := by
  induction es with
  | nil => rfl
  | cons e es ih =>
    have h1 : e.isErr = false := h e (List.mem_cons_self ..)
    have h2 := ih (fun x hx => h x (List.mem_cons_of_mem _ hx))
    cases e with
    | okDir => simpa [walkPlan] using h2
    | okFile j => simp [walkPlan, h2]
    | werr m2 => simp [WalkEntry.isErr] at h1

/-- C3 amended: if the walk of a directory source yields an error for some
entry, the error is not skipped: planning aborts and the whole operation
terminates with status `Error` carrying that entry's message (regardless of
the record's prior contents and of any entries after the failing one). -/
theorem walk_error_aborts_plan (es rest : List WalkEntry) (m : String)
    (h : ∀ e ∈ es, e.isErr = false) (rec : OpRecord) :
    (runCopyOp false true
      [{ existsOnDisk := true, hasName := true, renameOk := false,
         isDir := true, walk := es ++ .werr m :: rest,
         fileJob := mkJob 0 }] rec).status = .Error m := by
  have hw := walkPlan_append_err es m rest h
  simp [runCopyOp, performCopy, planAll, planSource, finalizeRecord, hw]

/-- Witness for `walk_error_aborts_plan` at a concrete walk. -/
theorem walk_error_aborts_plan_witness :
    (runCopyOp false true
      [{ existsOnDisk := true, hasName := true, renameOk := false,
         isDir := true, walk := [.okDir, .okFile (mkJob 3), .werr "denied"],
         fileJob := mkJob 0 }] rec0).status = .Error "denied" :=
  walk_error_aborts_plan [.okDir, .okFile (mkJob 3)] [] "denied" (by decide) rec0

/-- C4 amended: directories are skipped entirely during planning: for an
error-free walk, the flat pair list is exactly the list of regular files,
`total_bytes` is the sum of their sizes, and `total_files` counts only them
— directory entries contribute nothing anywhere, so empty directories are
not materialized by the worker pool. -/
theorem plan_contains_only_files (es : List WalkEntry)
    (h : ∀ e ∈ es, e.isErr = false) :
    walkPlan es = .ok (filesOf es, sizeSum (filesOf es), (filesOf es).length) := by
  induction es with
  | nil => rfl
  | cons e es ih =>
    have h1 : e.isErr = false := h e (List.mem_cons_self ..)
    have h2 := ih (fun x hx => h x (List.mem_cons_of_mem _ hx))
    cases e with
    | okDir => simpa [walkPlan, filesOf] using h2
    | okFile j => simp [walkPlan, filesOf, sizeSum, h2]
    | werr m2 => simp [WalkEntry.isErr] at h1

/-- Witness for `plan_contains_only_files` at a concrete walk. -/
theorem plan_contains_only_files_witness :
    walkPlan [.okDir, .okFile (mkJob 2)]
      = .ok (filesOf [.okDir, .okFile (mkJob 2)],
             sizeSum (filesOf [.okDir, .okFile (mkJob 2)]),
             (filesOf [.okDir, .okFile (mkJob 2)]).length) :=
  plan_contains_only_files [.okDir, .okFile (mkJob 2)] (by decide)

/-- C5: a per-file I/O failure (open, create, read or write) is swallowed:
the worker still adds exactly one to `processed_files` for that file and
continues its loop with the next claimed index (first part); and such
failures never reach the caller — whenever the fast-move filter and the
planning succeed, `perform_copy` returns `Ok` no matter how the individual
files fare, so the terminal status cannot become `Error` because of them
(second part). -/
theorem per_file_failure_swallowed :
    (∀ (mv : Bool) (j : FileJob),
        (processFile mv j).isIoFailure = true →
        (processFile mv j).dFiles = 1 ∧ (processFile mv j).workerReturned = false)
    ∧ (∀ (mv : Bool) (ss stc : List SrcNode) (rec : OpRecord)
        (jobs : List FileJob) (tb tf : Nat),
        (if mv then fastMoveFilter ss else Except.ok ss) = .ok stc →
        planAll stc = .ok (jobs, tb, tf) →
        (performCopy mv true ss rec).result = none) := by
  constructor
  · intro mv j h
    obtain ⟨sz, pc, oo, co, sg, ev⟩ := j
    cases pc
    · cases oo
      · exact ⟨rfl, rfl⟩
      · cases co
        · exact ⟨rfl, rfl⟩
        · simp only [processFile] at h ⊢
          cases hcl : (copyLoop sg ev).2 <;>
            simp [hcl, FileOutcome.isIoFailure] at h ⊢
    · simp [processFile, FileOutcome.isIoFailure] at h
  · intro mv ss stc rec jobs tb tf hf hp
    unfold performCopy
    rw [hf]
    simp only [Bool.not_true, Bool.false_eq_true, if_false]
    split
    · rfl
    · rw [hp]

/-- Witness for `per_file_failure_swallowed`: a Move worker hitting an open
failure counts the file and keeps going, and a Copy whose only file cannot
be opened still returns `Ok`. -/
theorem per_file_failure_swallowed_witness :
    ((processFile true openFailJob).dFiles = 1
      ∧ (processFile true openFailJob).workerReturned = false)
    ∧ (performCopy false true
        [{ existsOnDisk := true, hasName := true, renameOk := false,
           isDir := false, walk := [], fileJob := openFailJob }] rec0).result = none :=
  ⟨per_file_failure_swallowed.1 true openFailJob (by decide),
   per_file_failure_swallowed.2 false
     [{ existsOnDisk := true, hasName := true, renameOk := false,
        isDir := false, walk := [], fileJob := openFailJob }]
     [{ existsOnDisk := true, hasName := true, renameOk := false,
        isDir := false, walk := [], fileJob := openFailJob }]
     rec0 [openFailJob] 7 1 (by decide) (by decide)⟩

/-- Helper: the fast-move filter keeps exactly the existing sources whose
rename failed, provided every source has a valid file name. -/
theorem fastMoveFilter_eq (ss : List SrcNode)
    (h : ∀ s ∈ ss, s.hasName = true) :
    fastMoveFilter ss = .ok (ss.filter (fun s => s.existsOnDisk && !s.renameOk)) := by
  induction ss with
  | nil => rfl
  | cons s rest ih =>
    have hs : s.hasName = true := h s (List.mem_cons_self ..)
    have ih2 := ih (fun x hx => h x (List.mem_cons_of_mem _ hx))
    unfold fastMoveFilter
    cases he : s.existsOnDisk
    · simp [he, ih2, List.filter_cons]
    · cases hr : s.renameOk
      · simp [he, hr, hs, ih2, List.filter_cons]
      · simp [he, hr, hs, ih2, List.filter_cons]

/-- C6: for a Move (with every source carrying a valid file name), the
slow-path source list is exactly the existing sources whose atomic rename
failed; consequently every source whose rename succeeded is excluded from
the slow path — it never enters the flat pair list or the byte/file totals,
which `perform_copy` computes from this list alone. -/
theorem fast_moved_sources_excluded (ss : List SrcNode)
    (h : ∀ s ∈ ss, s.hasName = true) :
    fastMoveFilter ss = .ok (ss.filter (fun s => s.existsOnDisk && !s.renameOk))
    ∧ ∀ s ∈ ss, s.renameOk = true →
        s ∉ ss.filter (fun s => s.existsOnDisk && !s.renameOk) := by
  refine ⟨fastMoveFilter_eq ss h, ?_⟩
  intro s hmem hr hcon
  have := List.mem_filter.mp hcon
  simp [hr] at this

/-- Witness for `fast_moved_sources_excluded`: of one fast-moved and one
rename-failed source, only the latter reaches the slow path. -/
theorem fast_moved_sources_excluded_witness :
    fastMoveFilter [fastSrc, slowSrc] = .ok [slowSrc] := by
  have h := (fast_moved_sources_excluded [fastSrc, slowSrc] (by decide)).1
  rw [h]
  rfl

/-- Helper: whenever the slow-path pool runs (the fast-move filter and the
planning succeeded and the Move early-return was not taken), `perform_copy`
leaves behind `Ok` and a fully determined record: status `Running` with
`processed_* = total_*` and zero throughput, regardless of the incoming
record and of how the individual file copies fare. -/
theorem performCopy_pool_record (mv : Bool) (ss stc : List SrcNode)
    (rec : OpRecord) (jobs : List FileJob) (tb tf : Nat)
    (hf : (if mv then fastMoveFilter ss else Except.ok ss) = .ok stc)
    (hp : planAll stc = .ok (jobs, tb, tf))
    (hemp : (stc.isEmpty && mv) = false) :
    performCopy mv true ss rec =
      { result := none,
        record := { status := .Running, totalBytes := tb, processedBytes := tb,
                    totalFiles := tf, processedFiles := tf,
                    bytesPerSecond := 0 } } := by
  unfold performCopy
  rw [hf]
  simp only [Bool.not_true, Bool.false_eq_true, if_false, hemp]
  rw [hp]

/-- Helper: the finaliser only resolves the status; it never touches the
counters or the throughput field. -/
theorem finalizeRecord_counters (r : Option String) (x : OpRecord) :
    (finalizeRecord r x).processedBytes = x.processedBytes
    ∧ (finalizeRecord r x).totalBytes = x.totalBytes
    ∧ (finalizeRecord r x).processedFiles = x.processedFiles
    ∧ (finalizeRecord r x).totalFiles = x.totalFiles := by
  unfold finalizeRecord
  split <;> exact ⟨rfl, rfl, rfl, rfl⟩

/-- C8 amended: for every Copy/Move that runs the slow-path pool (planning
produced the pair list; for a Move, at least one source missed the fast
path), the final snapshot after the pool exits has
`processed_bytes = total_bytes`, `processed_files = total_files` and zero
throughput, and the operation then completes with those equalities intact —
so `Completed` implies full progress on this path.  (On the all-fast-moved
Move early return, lines 258-261, no snapshot is forced and submitted
counter values such as a caller totals hint survive, which is the
counterexample `fast_move_completed_without_full_progress`.) -/
theorem final_snapshot_forces_totals (mv : Bool) (ss stc : List SrcNode)
    (rec : OpRecord) (jobs : List FileJob) (tb tf : Nat)
    (hf : (if mv then fastMoveFilter ss else Except.ok ss) = .ok stc)
    (hp : planAll stc = .ok (jobs, tb, tf))
    (hne : ¬(mv = true ∧ stc = [])) :
    (performCopy mv true ss rec).result = none
    ∧ (performCopy mv true ss rec).record.processedBytes
        = (performCopy mv true ss rec).record.totalBytes
    ∧ (performCopy mv true ss rec).record.processedFiles
        = (performCopy mv true ss rec).record.totalFiles
    ∧ (performCopy mv true ss rec).record.bytesPerSecond = 0
    ∧ (runCopyOp mv true ss rec).status = .Completed
    ∧ (runCopyOp mv true ss rec).processedBytes = (runCopyOp mv true ss rec).totalBytes
    ∧ (runCopyOp mv true ss rec).processedFiles = (runCopyOp mv true ss rec).totalFiles := by
  have hemp : (stc.isEmpty && mv) = false := by
    cases mv
    · simp
    · cases hstc : stc with
      | nil => exact absurd ⟨rfl, hstc⟩ hne
      | cons a l => simp
  have hrun := performCopy_pool_record mv ss stc rec jobs tb tf hf hp hemp
  have hrunC := performCopy_pool_record mv ss stc
    { rec with status := .Calculating } jobs tb tf hf hp hemp
  refine ⟨?_, ?_, ?_, ?_, ?_, ?_, ?_⟩ <;>
    simp [hrun, runCopyOp, hrunC, finalizeRecord]

/-- Witness for `final_snapshot_forces_totals` at a concrete slow-path Copy. -/
theorem final_snapshot_forces_totals_witness :
    (performCopy false true [slowSrc] recHint).result = none
    ∧ (runCopyOp false true [slowSrc] recHint).status = .Completed
    ∧ (runCopyOp false true [slowSrc] recHint).processedFiles
        = (runCopyOp false true [slowSrc] recHint).totalFiles := by
  have h := final_snapshot_forces_totals false [slowSrc] [slowSrc] recHint
    [mkJob 3] 3 1 (by decide) (by decide) (by decide)
  exact ⟨h.1, h.2.2.2.2.1, h.2.2.2.2.2.2⟩

/-- Helper: every id collected for removal belongs to a record of the
registry whose status is terminal. -/
theorem cleanupToRemove_mem (entries : List (Nat × OpStatus)) (id : Nat)
    (hid : id ∈ cleanupToRemove entries) :
    ∃ st, (id, st) ∈ entries ∧ isTerminal st = true := by
  unfold cleanupToRemove at hid
  split at hid
  · have h1 : id ∈ (entries.filter (fun p => isTerminal p.2)).map Prod.fst :=
      List.take_subset _ _ hid
    obtain ⟨p, hpmem, hpfst⟩ := List.mem_map.mp h1
    obtain ⟨hpe, hpt⟩ := List.mem_filter.mp hpmem
    refine ⟨p.2, ?_, hpt⟩
    have hpp : (id, p.2) = p := by
      cases p
      simp only at hpfst
      simp [hpfst]
    rw [hpp]
    exact hpe
  · cases hid

/-- C9 amended: when a new operation is submitted, at most 20 records are
purged, every purged id belongs to a terminal record, records in a
non-terminal state are never evicted (given the registry's keys are
distinct, as map keys are), and nothing is purged while at most 50 records
are held.  The purge takes the first terminal records in `HashMap`
iteration order, which is unspecified — not oldest-first (see the
counterexample `eviction_not_oldest_first_example`). -/
theorem eviction_bounded_terminal_only (entries : List (Nat × OpStatus))
    (hnd : (entries.map Prod.fst).Nodup) :
    (cleanupToRemove entries).length ≤ 20
    ∧ (∀ id ∈ cleanupToRemove entries,
        ∃ st, (id, st) ∈ entries ∧ isTerminal st = true)
    ∧ (∀ p ∈ entries, isTerminal p.2 = false → p ∈ queueCleanup entries)
    ∧ (entries.length ≤ 50 → queueCleanup entries = entries) := by
  refine ⟨?_, fun id hid => cleanupToRemove_mem entries id hid, ?_, ?_⟩
  · unfold cleanupToRemove
    split
    · rw [List.length_take]
      exact min_le_left ..
    · simp
  · intro p hp hterm
    have hnc : p.1 ∉ cleanupToRemove entries := by
      intro hmemr
      obtain ⟨st, hste, hstt⟩ := cleanupToRemove_mem entries p.1 hmemr
      have heq : p = (p.1, st) :=
        List.inj_on_of_nodup_map hnd hp hste rfl
      rw [heq] at hterm
      simp only at hterm
      rw [hterm] at hstt
      cases hstt
    unfold queueCleanup
    exact List.mem_filter.mpr ⟨hp, by simp [hnc]⟩
  · intro hle
    have hrm : cleanupToRemove entries = [] := by
      unfold cleanupToRemove
      rw [if_neg (by omega)]
    unfold queueCleanup
    rw [hrm]
    apply List.filter_eq_self.mpr
    intro a _
    rfl

/-- Witness for `eviction_bounded_terminal_only` on a small registry. -/
theorem eviction_bounded_terminal_only_witness :
    (cleanupToRemove c9small).length ≤ 20
    ∧ (1, OpStatus.Running) ∈ queueCleanup c9small := by
  have h := eviction_bounded_terminal_only c9small (by decide)
  exact ⟨h.1, h.2.2.1 (1, OpStatus.Running) (by decide) (by decide)⟩

/-- C10: neither `perform_delete` nor `perform_trash` ever reads the pause
flag, so two runs identical except for the pause flag's value produce the
same result, the same record (counters and status), the same archive
removals and the same filesystem removals: `pause(id)` has no effect on a
Delete or Trash operation. -/
theorem delete_trash_ignore_pause :
    (∀ (ss : List DelSource) (t c p1 p2 : Bool)
        (f : String → Option String) (b : Option String) (rec : OpRecord),
        performDelete ⟨ss, t, c, p1, f, b⟩ rec = performDelete ⟨ss, t, c, p2, f, b⟩ rec)
    ∧ (∀ (ss : List DelSource) (c p1 p2 : Bool)
        (f : String → Option String) (se : Option String) (ab : Bool) (rec : OpRecord),
        performTrash ⟨ss, c, p1, f, se, ab⟩ rec = performTrash ⟨ss, c, p2, f, se, ab⟩ rec) := by
  exact ⟨fun _ _ _ _ _ _ _ _ => rfl, fun _ _ _ _ _ _ _ _ => rfl⟩

end OxydeFM
